import Mathlib

/-!
# Data I/O Interface — verified model

A shallow embedding of the Data I/O Interface core (`src/data_io.h`): a
hierarchical tree of scalars, ordered lists and keyed levels, queried and
mutated through dotted path expressions.  The repository ships only the
header, so every operation body is modelled from the specification
(`spec.md`), faithful to its words; each such definition carries a doc
comment saying so.  The C API mutates trees in place through opaque
handles; here mutation is explicit state passing: a mutator returns
`some newParent` where the C code returns `true` / a fresh handle, and
`none` where it returns `false` / `NULL`, leaving the caller's tree as it
was.  The `double` payload of numeric scalars is never computed with by
the core (it is stored and returned verbatim), so it is modelled by `Int`.
Printf-style substitution happens before segmentation, so path arguments
take the already rendered path string.
-/

/-- Modelled from the spec: `DATA_IO_MAX_PATH_LENGTH` — maximum length of a
rendered value path string (spec §3, §6: 256 characters accepted). -/
def DATA_IO_MAX_PATH_LENGTH : Nat := 256

/-- Modelled from the spec: `DATA_IO_MAX_VALUE_LENGTH` — byte budget of a
string scalar: 127 payload characters plus terminator (spec §6). -/
def DATA_IO_MAX_VALUE_LENGTH : Nat := 128

/-- Modelled from the spec: the `DataNode` tagged variant (spec §3) behind
the opaque `DataHandle`.  Exactly one of a scalar (number, string or
boolean), an ordered `list` of nodes, or a `level` mapping unique string
keys to nodes with insertion order preserved (an association list). -/
inductive DataNode where
  | number  : Int → DataNode
  | strVal  : String → DataNode
  | boolVal : Bool → DataNode
  | list    : List DataNode → DataNode
  | level   : List (String × DataNode) → DataNode
deriving Repr

mutual

/-- Structural decidable equality for the nested tree type (the `deriving`
handler does not cover nested inductives). -/
def DataNode.decEq : (a b : DataNode) → Decidable (a = b)
  | .number x, .number y =>
      if h : x = y then .isTrue (by rw [h]) else .isFalse (by simp [h])
  | .number _, .strVal _ => .isFalse (by simp)
  | .number _, .boolVal _ => .isFalse (by simp)
  | .number _, .list _ => .isFalse (by simp)
  | .number _, .level _ => .isFalse (by simp)
  | .strVal _, .number _ => .isFalse (by simp)
  | .strVal s, .strVal t =>
      if h : s = t then .isTrue (by rw [h]) else .isFalse (by simp [h])
  | .strVal _, .boolVal _ => .isFalse (by simp)
  | .strVal _, .list _ => .isFalse (by simp)
  | .strVal _, .level _ => .isFalse (by simp)
  | .boolVal _, .number _ => .isFalse (by simp)
  | .boolVal _, .strVal _ => .isFalse (by simp)
  | .boolVal a, .boolVal b =>
      if h : a = b then .isTrue (by rw [h]) else .isFalse (by simp [h])
  | .boolVal _, .list _ => .isFalse (by simp)
  | .boolVal _, .level _ => .isFalse (by simp)
  | .list _, .number _ => .isFalse (by simp)
  | .list _, .strVal _ => .isFalse (by simp)
  | .list _, .boolVal _ => .isFalse (by simp)
  | .list xs, .list ys =>
      match DataNode.decEqList xs ys with
      | .isTrue h => .isTrue (by rw [h])
      | .isFalse h => .isFalse (by simp [h])
  | .list _, .level _ => .isFalse (by simp)
  | .level _, .number _ => .isFalse (by simp)
  | .level _, .strVal _ => .isFalse (by simp)
  | .level _, .boolVal _ => .isFalse (by simp)
  | .level _, .list _ => .isFalse (by simp)
  | .level ps, .level qs =>
      match DataNode.decEqEntries ps qs with
      | .isTrue h => .isTrue (by rw [h])
      | .isFalse h => .isFalse (by simp [h])

def DataNode.decEqList : (xs ys : List DataNode) → Decidable (xs = ys)
  | [], [] => .isTrue rfl
  | [], _ :: _ => .isFalse (by simp)
  | _ :: _, [] => .isFalse (by simp)
  | x :: xs, y :: ys =>
      match DataNode.decEq x y with
      | .isTrue h1 =>
          match DataNode.decEqList xs ys with
          | .isTrue h2 => .isTrue (by rw [h1, h2])
          | .isFalse h2 => .isFalse (by simp [h2])
      | .isFalse h1 => .isFalse (by simp [h1])

def DataNode.decEqEntries : (ps qs : List (String × DataNode)) →
    Decidable (ps = qs)
  | [], [] => .isTrue rfl
  | [], _ :: _ => .isFalse (by simp)
  | _ :: _, [] => .isFalse (by simp)
  | (k, v) :: ps, (l, w) :: qs =>
      if hk : k = l then
        match DataNode.decEq v w with
        | .isTrue h1 =>
            match DataNode.decEqEntries ps qs with
            | .isTrue h2 => .isTrue (by rw [hk, h1, h2])
            | .isFalse h2 => .isFalse (by simp [h2])
        | .isFalse h1 => .isFalse (by simp [h1])
      else .isFalse (by simp [hk])

end

instance : DecidableEq DataNode := DataNode.decEq

/-- Look a key up in a level's association list, front to back. -/
def lookupKey : List (String × DataNode) → String → Option DataNode
  | [], _ => none
  | (k, v) :: rest, key => if k = key then some v else lookupKey rest key

/-- The keys of a level's association list, in insertion order. -/
def keysOf (entries : List (String × DataNode)) : List String :=
  entries.map Prod.fst

/-- Whether a level's association list already holds the key. -/
def hasEntry (entries : List (String × DataNode)) (key : String) : Bool :=
  entries.any (fun p => p.1 = key)

/-- Modelled from the spec: placement under a key in a Level (spec §3, §4.2)
— if the key already exists its node is replaced wholesale, keeping the
entry's position; otherwise the new entry is appended, preserving
insertion order. -/
def insertOrReplace : List (String × DataNode) → String → DataNode →
    List (String × DataNode)
  | [], key, v => [(key, v)]
  | (k, w) :: rest, key, v =>
      if k = key then (key, v) :: rest
      else (k, w) :: insertOrReplace rest key v

mutual

/-- Modelled from the spec: the tree invariant of §3 — keys within every
Level of the tree are unique (decidable form). -/
def wellFormed : DataNode → Bool
  | .number _ => true
  | .strVal _ => true
  | .boolVal _ => true
  | .list elems => wellFormedList elems
  | .level entries => (keysOf entries).Nodup && wellFormedEntries entries

def wellFormedList : List DataNode → Bool
  | [] => true
  | x :: xs => wellFormed x && wellFormedList xs

def wellFormedEntries : List (String × DataNode) → Bool
  | [] => true
  | (_, v) :: rest => wellFormed v && wellFormedEntries rest

end

/-- A classified path segment: a string key into a Level or a numeric
index into a List (spec §4.1). -/
inductive Segment where
  | key (k : String)
  | index (i : Nat)
deriving Repr, DecidableEq

/-- Whether a segment string is parseable as a non-negative integer:
non-empty and all decimal digits (spec §4.1).  Negative or fractional
tokens fail this test and are therefore keys. -/
def isIndexSegment (s : String) : Bool :=
  !s.data.isEmpty && s.data.all Char.isDigit

/-- Decimal value of an all-digit segment. -/
def digitsToNat (s : String) : Nat :=
  s.data.foldl (fun n c => 10 * n + (c.toNat - 48)) 0

/-- Modelled from the spec: segment classification (spec §4.1) — a segment
parseable as a non-negative integer is an index into a List; every other
segment is a key into a Level. -/
def classifySegment (s : String) : Segment :=
  if isIndexSegment s then .index (digitsToNat s) else .key s

/-- Modelled from the spec: one traversal step (spec §4.1).  An empty
segment (produced by a leading, trailing or doubled dot) never matches any
key or index; a key segment descends into a Level, an index segment into a
List; any segment/node-kind mismatch, absent key or out-of-range index
fails. -/
def stepSegment (node : DataNode) (s : String) : Option DataNode :=
  if s.isEmpty then none
  else
    match classifySegment s, node with
    | .index i, .list elems => elems.get? i
    | .key k, .level entries => lookupKey entries k
    | _, _ => none

/-- Walk a segment list left to right from a node, failing as soon as a
step fails; the empty segment list resolves to the node itself. -/
def resolveSegs : DataNode → List String → Option DataNode
  | node, [] => some node
  | node, s :: rest =>
      match stepSegment node s with
      | some child => resolveSegs child rest
      | none => none

/-- Modelled from the spec: segmentation (spec §4.1) — the rendered path is
split on the dot character; the empty path yields no segments at all and
so resolves to the root itself. -/
def parsePath (path : String) : List String :=
  if path.isEmpty then [] else (path.data.splitOn '.').map String.mk

/-- Modelled from the spec: `PathResolver.resolve` in read mode (spec §4.1,
§6).  A rendered path longer than `DATA_IO_MAX_PATH_LENGTH` is rejected;
otherwise the path is segmented and walked from the root.  Resolution never
auto-creates nodes; failure is an absent result. -/
def resolve (root : DataNode) (path : String) : Option DataNode :=
  if path.length ≤ DATA_IO_MAX_PATH_LENGTH then
    resolveSegs root (parsePath path)
  else none

/-- Modelled from the spec: `DataIO_GetSubData` — resolve the rendered path
to an inner node reference (`none` models `NULL`). -/
def DataIO_GetSubData (data : DataNode) (path : String) : Option DataNode :=
  resolve data path

/-- Modelled from the spec: `DataIO_GetNumericValue` (spec §4.3) — total:
returns the numeric payload when the path resolves to a numeric scalar and
the supplied default in every other case (path not found, or the resolved
node is not a numeric scalar). -/
def DataIO_GetNumericValue (data : DataNode) (defaultValue : Int)
    (path : String) : Int :=
  match resolve data path with
  | some (.number x) => x
  | _ => defaultValue

/-- Modelled from the spec: `DataIO_GetStringValue` (spec §4.3) — same
collapse of not-found and wrong-kind into the default. -/
def DataIO_GetStringValue (data : DataNode) (defaultValue : String)
    (path : String) : String :=
  match resolve data path with
  | some (.strVal s) => s
  | _ => defaultValue

/-- Modelled from the spec: `DataIO_GetBooleanValue` (spec §4.3) — same
collapse of not-found and wrong-kind into the default. -/
def DataIO_GetBooleanValue (data : DataNode) (defaultValue : Bool)
    (path : String) : Bool :=
  match resolve data path with
  | some (.boolVal b) => b
  | _ => defaultValue

/-- Modelled from the spec: `DataIO_GetListSize` (spec §4.3) — the element
count when the path resolves to a List, else 0 (missing and wrong kind are
indistinguishable). -/
def DataIO_GetListSize (data : DataNode) (path : String) : Nat :=
  match resolve data path with
  | some (.list elems) => elems.length
  | _ => 0

/-- Modelled from the spec: `DataIO_HasKey` (spec §4.3) — true iff
resolution succeeds, regardless of the resolved node's kind. -/
def DataIO_HasKey (data : DataNode) (path : String) : Bool :=
  (resolve data path).isSome

/-- Modelled from the spec: the shared placement rule of the mutation
primitives (spec §4.2).  With a key the parent must be a Level and the key
is inserted or replaced; with `none` (the C `NULL` key) the parent must
already be a List and the node is appended; any other parent kind is a
no-op failure.  Returns the updated parent, `none` meaning `false`/`NULL`
with the parent untouched. -/
def setNode (parent : DataNode) (key : Option String) (v : DataNode) :
    Option DataNode :=
  match key with
  | some k =>
      match parent with
      | .level entries => some (.level (insertOrReplace entries k v))
      | _ => none
  | none =>
      match parent with
      | .list elems => some (.list (elems ++ [v]))
      | _ => none

/-- Modelled from the spec: `DataIO_AddList` (spec §4.2) — place a new
empty List under the key, or append it when the key is `none`. -/
def DataIO_AddList (data : DataNode) (key : Option String) : Option DataNode :=
  setNode data key (.list [])

/-- Modelled from the spec: `DataIO_AddLevel` (spec §4.2) — place a new
empty Level under the key, or append it when the key is `none`. -/
def DataIO_AddLevel (data : DataNode) (key : Option String) : Option DataNode :=
  setNode data key (.level [])

/-- Modelled from the spec: `DataIO_SetNumericValue` (spec §4.2) — place or
overwrite a numeric scalar under the key (append for `none`). -/
def DataIO_SetNumericValue (data : DataNode) (key : Option String)
    (value : Int) : Option DataNode :=
  setNode data key (.number value)

/-- Modelled from the spec: `DataIO_SetStringValue` (spec §4.2, §6, §7) — a
string value needing more than the 128-byte budget (127 payload characters
plus terminator) is a LimitExceeded failure of this operation only, the
tree untouched; otherwise place or overwrite the string scalar. -/
def DataIO_SetStringValue (data : DataNode) (key : Option String)
    (value : String) : Option DataNode :=
  if value.length + 1 ≤ DATA_IO_MAX_VALUE_LENGTH then
    setNode data key (.strVal value)
  else none

/-- Modelled from the spec: `DataIO_SetBooleanValue` (spec §4.2) — place or
overwrite a boolean scalar under the key (append for `none`). -/
def DataIO_SetBooleanValue (data : DataNode) (key : Option String)
    (value : Bool) : Option DataNode :=
  setNode data key (.boolVal value)

/-- Modelled from the spec: `DataIO_CreateEmptyData` — a fresh empty tree;
the scenario of spec §8 starts from an empty Level root. -/
def DataIO_CreateEmptyData : DataNode :=
  .level []

/-! ## A canonical backend (serialize / parse / storage listing)

The concrete backend bodies (`DataIO_GetDataString`, `DataIO_LoadStringData`,
`DataIO_ListStorageDataEntries`) are external collaborators the repository
does not ship; spec §4.4 and §6 only impose a contract on them.  They are
modelled here as one canonical backend satisfying that contract: an
injective, order-preserving textual format (lengths in unary, string
payloads raw after a length prefix) whose parser is the exact inverse of
the serializer. -/

/-- A natural number in unary: `n` ones closed by a zero digit. -/
def unaryNat (n : Nat) : List Char :=
  List.replicate n '1' ++ ['0']

/-- Read a unary number back off the front of the character stream. -/
def parseUnary : List Char → Option (Nat × List Char)
  | '0' :: rest => some (0, rest)
  | '1' :: rest =>
      match parseUnary rest with
      | some (n, r) => some (n + 1, r)
      | none => none
  | _ => none

/-- A signed integer: sign character then unary magnitude, negatives via
`Int.negSucc` so the encoding is a bijection. -/
def serInt : Int → List Char
  | .ofNat n => '+' :: unaryNat n
  | .negSucc n => '-' :: unaryNat n

/-- Read a signed integer back off the front of the character stream. -/
def parseInt : List Char → Option (Int × List Char)
  | '+' :: rest =>
      match parseUnary rest with
      | some (n, r) => some (Int.ofNat n, r)
      | none => none
  | '-' :: rest =>
      match parseUnary rest with
      | some (n, r) => some (Int.negSucc n, r)
      | none => none
  | _ => none

/-- Take exactly `n` characters off the front of the stream. -/
def takeChars : Nat → List Char → Option (List Char × List Char)
  | 0, cs => some ([], cs)
  | _ + 1, [] => none
  | n + 1, c :: cs =>
      match takeChars n cs with
      | some (l, r) => some (c :: l, r)
      | none => none

mutual

/-- Modelled from the spec: the serialize-to-string half of the canonical
backend (contract in spec §4.4: values, key order within Levels and List
order preserved). -/
def serNode : DataNode → List Char
  | .number x => 'N' :: serInt x
  | .strVal s => 'S' :: (unaryNat s.data.length ++ s.data)
  | .boolVal false => ['B', '0']
  | .boolVal true => ['B', '1']
  | .list es => 'L' :: (unaryNat es.length ++ serNodes es)
  | .level ps => 'M' :: (unaryNat ps.length ++ serEntries ps)

def serNodes : List DataNode → List Char
  | [] => []
  | t :: ts => serNode t ++ serNodes ts

def serEntries : List (String × DataNode) → List Char
  | [] => []
  | (k, v) :: ps => unaryNat k.data.length ++ k.data ++ serNode v ++ serEntries ps

end

mutual

/-- Modelled from the spec: the parse-from-string half of the canonical
backend; `fuel` only bounds nesting depth and any fuel at least the tree's
depth is enough. -/
def parseNode : Nat → List Char → Option (DataNode × List Char)
  | 0, _ => none
  | fuel + 1, cs =>
      match cs with
      | 'N' :: rest =>
          match parseInt rest with
          | some (x, r) => some (.number x, r)
          | none => none
      | 'S' :: rest =>
          match parseUnary rest with
          | some (n, r) =>
              match takeChars n r with
              | some (l, r2) => some (.strVal (String.mk l), r2)
              | none => none
          | none => none
      | 'B' :: '0' :: rest => some (.boolVal false, rest)
      | 'B' :: '1' :: rest => some (.boolVal true, rest)
      | 'L' :: rest =>
          match parseUnary rest with
          | some (n, r) =>
              match parseNodes fuel n r with
              | some (es, r2) => some (.list es, r2)
              | none => none
          | none => none
      | 'M' :: rest =>
          match parseUnary rest with
          | some (n, r) =>
              match parseEntries fuel n r with
              | some (ps, r2) => some (.level ps, r2)
              | none => none
          | none => none
      | _ => none
termination_by fuel _ => (fuel, 0)

def parseNodes : Nat → Nat → List Char → Option (List DataNode × List Char)
  | _, 0, cs => some ([], cs)
  | fuel, n + 1, cs =>
      match parseNode fuel cs with
      | some (t, r) =>
          match parseNodes fuel n r with
          | some (ts, r2) => some (t :: ts, r2)
          | none => none
      | none => none
termination_by fuel n _ => (fuel, n + 1)

def parseEntries : Nat → Nat → List Char →
    Option (List (String × DataNode) × List Char)
  | _, 0, cs => some ([], cs)
  | fuel, n + 1, cs =>
      match parseUnary cs with
      | some (kl, r) =>
          match takeChars kl r with
          | some (ks, r1) =>
              match parseNode fuel r1 with
              | some (v, r2) =>
                  match parseEntries fuel n r2 with
                  | some (ps, r3) => some ((String.mk ks, v) :: ps, r3)
                  | none => none
              | none => none
          | none => none
      | none => none
termination_by fuel n _ => (fuel, n + 1)

end

mutual

/-- Nesting depth of a tree: the fuel the canonical parser needs. -/
def depthNode : DataNode → Nat
  | .number _ => 1
  | .strVal _ => 1
  | .boolVal _ => 1
  | .list es => depthList es + 1
  | .level ps => depthEntries ps + 1

def depthList : List DataNode → Nat
  | [] => 0
  | t :: ts => max (depthNode t) (depthList ts)

def depthEntries : List (String × DataNode) → Nat
  | [] => 0
  | (_, v) :: ps => max (depthNode v) (depthEntries ps)

end

/-- Modelled from the spec: `DataIO_GetDataString` — serialize the tree to
a caller-owned string through the canonical backend. -/
def DataIO_GetDataString (data : DataNode) : String :=
  String.mk (serNode data)

/-- Modelled from the spec: `DataIO_LoadStringData` — parse a string into a
fresh tree through the canonical backend (`none` models `NULL` on
errors); the whole string must be consumed. -/
def DataIO_LoadStringData (dataString : String) : Option DataNode :=
  match parseNode (dataString.length + 1) dataString.data with
  | some (t, []) => some t
  | _ => none

/-- A modelled storage: a finite table from location to the entry names
discoverable there; a location absent from the table is unavailable. -/
def lookupStorage : List (String × List String) → String → Option (List String)
  | [], _ => none
  | (p, names) :: rest, path =>
      if p = path then some names else lookupStorage rest path

/-- Modelled from the spec: `DataIO_ListStorageDataEntries` (spec §4.4) —
the finite, order-unspecified collection of entry names at the location;
no entries yields the empty collection, while `none` (the C `NULL`) is
reserved for backend unavailability, never for emptiness. -/
def DataIO_ListStorageDataEntries (store : List (String × List String))
    (storagePath : String) : Option (List String) :=
  lookupStorage store storagePath

/-- Kind test: is the node a numeric scalar? -/
def isNumberNode : DataNode → Bool
  | .number _ => true
  | _ => false

/-- Kind test: is the node a string scalar? -/
def isStringNode : DataNode → Bool
  | .strVal _ => true
  | _ => false

/-- Kind test: is the node a boolean scalar? -/
def isBoolNode : DataNode → Bool
  | .boolVal _ => true
  | _ => false

/-- A key usable verbatim as a single-segment path: non-empty, without a
dot, not parseable as a non-negative integer (else it would be classified
as a List index), and within the rendered-path length limit. -/
def isPlainKeyPath (k : String) : Bool :=
  !k.data.isEmpty && decide ('.' ∉ k.data) && !isIndexSegment k &&
    decide (k.length ≤ DATA_IO_MAX_PATH_LENGTH)

/-- Fixture: a path of exactly 256 characters. -/
def path256 : String := String.mk (List.replicate 256 'a')

/-- Fixture: a tree holding a value under the 256-character key. -/
def tree256 : DataNode := .level [(path256, .number 1)]

/-- Fixture: a path of exactly 257 characters. -/
def path257 : String := String.mk (List.replicate 257 'a')

/-- Fixture: a tree holding a value under the 257-character key. -/
def tree257 : DataNode := .level [(path257, .number 1)]

/-- Fixture: a string value of exactly 127 payload characters. -/
def str127 : String := String.mk (List.replicate 127 'b')

/-- Fixture: a string value of exactly 128 payload characters. -/
def str128 : String := String.mk (List.replicate 128 'b')

/-- Fixture: the configuration-tree scenario of spec §8. -/
def demoTree : DataNode :=
  .level [("server", .level
    [("port", .number 8080), ("name", .strVal "srv"),
     ("flag", .boolVal true), ("items", .list [.list [], .number 3])])]

set_option maxRecDepth 8192


/-! ## Lemma layer -/

theorem parseUnary_unary (n : Nat) (rest : List Char) :
    parseUnary (unaryNat n ++ rest) = some (n, rest) := by
  induction n with
  | zero => simp [unaryNat, parseUnary]
  | succ k ih =>
      simp only [unaryNat, List.append_assoc, List.singleton_append] at ih
      simp [unaryNat, List.replicate_succ, parseUnary, ih]

theorem parseInt_serInt (x : Int) (rest : List Char) :
    parseInt (serInt x ++ rest) = some (x, rest) := by
  cases x with
  | ofNat n => simp [serInt, parseInt, parseUnary_unary]
  | negSucc n => simp [serInt, parseInt, parseUnary_unary]

theorem takeChars_append (l rest : List Char) :
    takeChars l.length (l ++ rest) = some (l, rest) := by
  induction l with
  | nil => simp [takeChars]
  | cons c cs ih => simp [takeChars, ih]

mutual

/-- The canonical parser is a left inverse of the canonical serializer on
any fuel at least the tree's depth, leaving the trailing stream intact. -/
theorem parse_serNode : ∀ (t : DataNode) (fuel : Nat) (rest : List Char),
    depthNode t ≤ fuel → parseNode fuel (serNode t ++ rest) = some (t, rest)
  | .number x, fuel, rest, h => by
      cases fuel with
      | zero => simp [depthNode] at h
      | succ f => simp [serNode, parseNode, parseInt_serInt]
  | .strVal s, fuel, rest, h => by
      cases fuel with
      | zero => simp [depthNode] at h
      | succ f =>
          have ht : takeChars s.length (s.data ++ rest) = some (s.data, rest) :=
            takeChars_append s.data rest
          simp [serNode, parseNode, parseUnary_unary, ht]
  | .boolVal b, fuel, rest, h => by
      cases fuel with
      | zero => simp [depthNode] at h
      | succ f => cases b <;> simp [serNode, parseNode]
  | .list es, fuel, rest, h => by
      cases fuel with
      | zero => simp [depthNode] at h
      | succ f =>
          have h' : depthList es ≤ f := by
            simp only [depthNode] at h; omega
          simp [serNode, parseNode, parseUnary_unary,
            parse_serNodes es f rest h']
  | .level ps, fuel, rest, h => by
      cases fuel with
      | zero => simp [depthNode] at h
      | succ f =>
          have h' : depthEntries ps ≤ f := by
            simp only [depthNode] at h; omega
          simp [serNode, parseNode, parseUnary_unary,
            parse_serEntries ps f rest h']

theorem parse_serNodes : ∀ (ts : List DataNode) (fuel : Nat) (rest : List Char),
    depthList ts ≤ fuel →
    parseNodes fuel ts.length (serNodes ts ++ rest) = some (ts, rest)
  | [], fuel, rest, _ => by simp [serNodes, parseNodes]
  | t :: ts, fuel, rest, h => by
      have hm : max (depthNode t) (depthList ts) ≤ fuel := by
        simpa [depthList] using h
      have h1 : depthNode t ≤ fuel := le_trans (le_max_left _ _) hm
      have h2 : depthList ts ≤ fuel := le_trans (le_max_right _ _) hm
      simp [serNodes, parseNodes,
        parse_serNode t fuel (serNodes ts ++ rest) h1,
        parse_serNodes ts fuel rest h2]

theorem parse_serEntries : ∀ (ps : List (String × DataNode)) (fuel : Nat)
    (rest : List Char), depthEntries ps ≤ fuel →
    parseEntries fuel ps.length (serEntries ps ++ rest) = some (ps, rest)
  | [], fuel, rest, _ => by simp [serEntries, parseEntries]
  | (k, v) :: ps, fuel, rest, h => by
      have hm : max (depthNode v) (depthEntries ps) ≤ fuel := by
        simpa [depthEntries] using h
      have h1 : depthNode v ≤ fuel := le_trans (le_max_left _ _) hm
      have h2 : depthEntries ps ≤ fuel := le_trans (le_max_right _ _) hm
      have ht : takeChars k.length (k.data ++ (serNode v ++ (serEntries ps ++ rest))) =
          some (k.data, serNode v ++ (serEntries ps ++ rest)) :=
        takeChars_append k.data (serNode v ++ (serEntries ps ++ rest))
      simp [serEntries, parseEntries, parseUnary_unary, ht,
        parse_serNode v fuel (serEntries ps ++ rest) h1,
        parse_serEntries ps fuel rest h2]

end

mutual

/-- Each serialized node spends at least one character per nesting step,
so the serialized length bounds the depth. -/
theorem depthNode_le_serLength : ∀ t : DataNode,
    depthNode t ≤ (serNode t).length
  | .number x => by simp [depthNode, serNode]
  | .strVal s => by simp [depthNode, serNode]
  | .boolVal b => by cases b <;> simp [depthNode, serNode]
  | .list es => by
      have h := depthList_le_serLength es
      simp only [depthNode, serNode, List.length_cons, List.length_append]
      omega
  | .level ps => by
      have h := depthEntries_le_serLength ps
      simp only [depthNode, serNode, List.length_cons, List.length_append]
      omega

theorem depthList_le_serLength : ∀ ts : List DataNode,
    depthList ts ≤ (serNodes ts).length
  | [] => by simp [depthList, serNodes]
  | t :: ts => by
      have h1 := depthNode_le_serLength t
      have h2 := depthList_le_serLength ts
      simp only [depthList, serNodes, List.length_append]
      omega

theorem depthEntries_le_serLength : ∀ ps : List (String × DataNode),
    depthEntries ps ≤ (serEntries ps).length
  | [] => by simp [depthEntries, serEntries]
  | (k, v) :: ps => by
      have h1 := depthNode_le_serLength v
      have h2 := depthEntries_le_serLength ps
      simp only [depthEntries, serEntries, List.length_append]
      omega

end

/-- A walk fails outright whenever any segment of the list is empty. -/
theorem resolveSegs_of_empty_mem (segs : List String) :
    ∀ root : DataNode, "" ∈ segs → resolveSegs root segs = none := by
  induction segs with
  | nil => intro root h; simp at h
  | cons s rest ih =>
      intro root h
      by_cases hs : s = ""
      · subst hs
        simp [resolveSegs, stepSegment, show "".isEmpty = true from rfl]
      · have hmem : "" ∈ rest := by
          rcases List.mem_cons.mp h with h1 | h1
          · exact absurd h1.symm hs
          · exact h1
        cases hstep : stepSegment root s with
        | none => simp [resolveSegs, hstep]
        | some child => simp [resolveSegs, hstep, ih child hmem]

/-- An empty segment anywhere in the rendered path fails resolution, for
every tree. -/
theorem resolve_of_empty_seg (root : DataNode) (p : String)
    (h : "" ∈ parsePath p) : resolve root p = none := by
  unfold resolve
  split
  · exact resolveSegs_of_empty_mem (parsePath p) root h
  · rfl

/-- A key containing no dot survives segmentation as the single segment. -/
theorem parsePath_single (k : String) (hne : k ≠ "") (hdot : '.' ∉ k.data) :
    parsePath k = [k] := by
  unfold parsePath
  rw [if_neg (by simpa [String.isEmpty_iff] using hne)]
  have hsplit : k.data.splitOn '.' = [k.data] := by
    apply List.splitOnP_eq_single
    intro x hx
    simp only [beq_iff_eq]
    intro hcontra
    exact hdot (hcontra ▸ hx)
  rw [hsplit]
  rfl

/-- Replacement finds its own key. -/
theorem lookup_insertOrReplace_self (entries : List (String × DataNode))
    (key : String) (v : DataNode) :
    lookupKey (insertOrReplace entries key v) key = some v := by
  induction entries with
  | nil => simp [insertOrReplace, lookupKey]
  | cons p rest ih =>
      obtain ⟨k, w⟩ := p
      by_cases hk : k = key
      · simp [insertOrReplace, hk, lookupKey]
      · simp [insertOrReplace, hk, lookupKey, ih]

/-- Replacement leaves every other key's lookup untouched. -/
theorem lookup_insertOrReplace_ne (entries : List (String × DataNode))
    (key k' : String) (v : DataNode) (h : k' ≠ key) :
    lookupKey (insertOrReplace entries key v) k' = lookupKey entries k' := by
  induction entries with
  | nil => simp [insertOrReplace, lookupKey, Ne.symm h]
  | cons p rest ih =>
      obtain ⟨k, w⟩ := p
      by_cases hk : k = key
      · subst hk
        simp [insertOrReplace, lookupKey, Ne.symm h]
      · simp [insertOrReplace, hk, lookupKey, ih]

/-- The key being present means membership in the key list. -/
theorem hasEntry_iff_mem (entries : List (String × DataNode)) (key : String) :
    hasEntry entries key = true ↔ key ∈ keysOf entries := by
  induction entries with
  | nil => simp [hasEntry, keysOf]
  | cons p rest ih =>
      obtain ⟨k, w⟩ := p
      simp only [hasEntry, keysOf] at *
      by_cases hk : k = key
      · simp [hk]
      · simp [hk, Ne.symm hk, ih]

/-- Replacing an existing key keeps the key list identical. -/
theorem keysOf_insertOrReplace_mem (entries : List (String × DataNode))
    (key : String) (v : DataNode) (h : hasEntry entries key = true) :
    keysOf (insertOrReplace entries key v) = keysOf entries := by
  induction entries with
  | nil => simp [hasEntry] at h
  | cons p rest ih =>
      obtain ⟨k, w⟩ := p
      by_cases hk : k = key
      · simp [insertOrReplace, hk, keysOf]
      · have h' : hasEntry rest key = true := by
          simpa [hasEntry, hk] using h
        simp [insertOrReplace, hk, keysOf] at *
        exact ih h'

/-- Adding an absent key appends exactly it to the key list. -/
theorem keysOf_insertOrReplace_not_mem (entries : List (String × DataNode))
    (key : String) (v : DataNode) (h : hasEntry entries key = false) :
    keysOf (insertOrReplace entries key v) = keysOf entries ++ [key] := by
  induction entries with
  | nil => simp [insertOrReplace, keysOf]
  | cons p rest ih =>
      obtain ⟨k, w⟩ := p
      have hk : k ≠ key := by
        intro hcontra
        simp [hasEntry, hcontra] at h
      have h' : hasEntry rest key = false := by
        simpa [hasEntry, hk] using h
      simp [insertOrReplace, hk, keysOf] at *
      exact ih h'

/-- Replacing an existing key keeps the number of entries. -/
theorem length_insertOrReplace_mem (entries : List (String × DataNode))
    (key : String) (v : DataNode) (h : hasEntry entries key = true) :
    (insertOrReplace entries key v).length = entries.length := by
  induction entries with
  | nil => simp [hasEntry] at h
  | cons p rest ih =>
      obtain ⟨k, w⟩ := p
      by_cases hk : k = key
      · simp [insertOrReplace, hk]
      · have h' : hasEntry rest key = true := by
          simpa [hasEntry, hk] using h
        simp [insertOrReplace, hk, ih h']

/-- Insertion or replacement preserves key uniqueness within the level. -/
theorem nodup_insertOrReplace (entries : List (String × DataNode))
    (key : String) (v : DataNode) (h : (keysOf entries).Nodup) :
    (keysOf (insertOrReplace entries key v)).Nodup := by
  cases hmem : hasEntry entries key with
  | true => rw [keysOf_insertOrReplace_mem entries key v hmem]; exact h
  | false =>
      rw [keysOf_insertOrReplace_not_mem entries key v hmem]
      have hnot : key ∉ keysOf entries := by
        intro hcontra
        rw [(hasEntry_iff_mem entries key).mpr hcontra] at hmem
        exact Bool.noConfusion hmem
      simp [List.nodup_append, h, hnot]

/-- Insertion or replacement of a well-formed node keeps every entry
well-formed. -/
theorem wellFormedEntries_insertOrReplace (entries : List (String × DataNode))
    (key : String) (v : DataNode) (he : wellFormedEntries entries = true)
    (hv : wellFormed v = true) :
    wellFormedEntries (insertOrReplace entries key v) = true := by
  induction entries with
  | nil => simp [insertOrReplace, wellFormedEntries, hv]
  | cons p rest ih =>
      obtain ⟨k, w⟩ := p
      simp only [wellFormedEntries, Bool.and_eq_true] at he
      by_cases hk : k = key
      · simp [insertOrReplace, hk, wellFormedEntries, hv, he.2]
      · simp [insertOrReplace, hk, wellFormedEntries, he.1, ih he.2]

/-! ## Claim theorems -/

/-- C1: each typed accessor (numeric, string, boolean) is total and returns
the supplied default whenever path resolution fails or the resolved node is
not a scalar of the requested kind; both failure causes collapse into the
same observable outcome (the default), and no other failure is signalled —
the accessors are plain functions into their value types. -/
theorem C1_typed_accessors_default (data : DataNode) (p : String)
    (dn : Int) (ds : String) (db : Bool) :
    ((resolve data p = none ∨
        ∃ node, resolve data p = some node ∧ isNumberNode node = false) →
      DataIO_GetNumericValue data dn p = dn) ∧
    ((resolve data p = none ∨
        ∃ node, resolve data p = some node ∧ isStringNode node = false) →
      DataIO_GetStringValue data ds p = ds) ∧
    ((resolve data p = none ∨
        ∃ node, resolve data p = some node ∧ isBoolNode node = false) →
      DataIO_GetBooleanValue data db p = db) := by
  refine ⟨?_, ?_, ?_⟩
  · rintro (h | ⟨node, hres, hkind⟩)
    · simp [DataIO_GetNumericValue, h]
    · cases node <;> simp_all [DataIO_GetNumericValue, isNumberNode]
  · rintro (h | ⟨node, hres, hkind⟩)
    · simp [DataIO_GetStringValue, h]
    · cases node <;> simp_all [DataIO_GetStringValue, isStringNode]
  · rintro (h | ⟨node, hres, hkind⟩)
    · simp [DataIO_GetBooleanValue, h]
    · cases node <;> simp_all [DataIO_GetBooleanValue, isBoolNode]

/-- C1 witness: concrete defaults through a wrong-kind node and a missing
path. -/
theorem C1_witness :
    DataIO_GetNumericValue demoTree 9 "server.name" = 9 ∧
    DataIO_GetStringValue demoTree "dflt" "server.missing" = "dflt" ∧
    DataIO_GetBooleanValue demoTree false "server.port" = false :=
  ⟨(C1_typed_accessors_default demoTree "server.name" 9 "dflt" false).1
      (Or.inr ⟨.strVal "srv", by decide, by decide⟩),
   (C1_typed_accessors_default demoTree "server.missing" 9 "dflt" false).2.1
      (Or.inl (by decide)),
   (C1_typed_accessors_default demoTree "server.port" 9 "dflt" false).2.2
      (Or.inr ⟨.number 8080, by decide, by decide⟩)⟩

/-- C5: `DataIO_GetListSize` returns the element count when the path
resolves to a List node, and 0 in every other case — a missing path and a
wrong-kind node are indistinguishable through this accessor. -/
theorem C5_getListSize (data : DataNode) (p : String) :
    (∀ elems, resolve data p = some (.list elems) →
        DataIO_GetListSize data p = elems.length) ∧
    ((∀ elems, resolve data p ≠ some (.list elems)) →
        DataIO_GetListSize data p = 0) := by
  constructor
  · intro elems h
    simp [DataIO_GetListSize, h]
  · intro h
    unfold DataIO_GetListSize
    cases hres : resolve data p with
    | none => rfl
    | some node =>
        cases node with
        | list es => exact absurd hres (h es)
        | number x => rfl
        | strVal s => rfl
        | boolVal b => rfl
        | level ps => rfl

/-- C5 witness: a real List, a missing path and a wrong-kind node. -/
theorem C5_witness :
    DataIO_GetListSize demoTree "server.items" = 2 ∧
    DataIO_GetListSize demoTree "server.missing" = 0 ∧
    DataIO_GetListSize demoTree "server.port" = 0 :=
  ⟨(C5_getListSize demoTree "server.items").1 [.list [], .number 3] (by decide),
   (C5_getListSize demoTree "server.missing").2 (fun elems h => by
      rw [show resolve demoTree "server.missing" = none from by decide] at h
      exact Option.noConfusion h),
   (C5_getListSize demoTree "server.port").2 (fun elems h => by
      rw [show resolve demoTree "server.port" = some (.number 8080) from by decide] at h
      simp at h)⟩

/-- C6: `DataIO_HasKey` is true exactly when path resolution succeeds,
whatever the kind of the resolved node, and false exactly when the path is
absent. -/
theorem C6_hasKey_iff (data : DataNode) (p : String) :
    (DataIO_HasKey data p = true ↔ ∃ node, resolve data p = some node) ∧
    (DataIO_HasKey data p = false ↔ resolve data p = none) := by
  cases h : resolve data p <;> simp [DataIO_HasKey, h]

/-- C10: listing the entries of a storage location yields the finite
collection of names found there; a location that exists but holds no
entries yields the empty collection, never the absent (`NULL`) result. -/
theorem C10_listEntries (store : List (String × List String)) (path : String)
    (names : List String) (h : lookupStorage store path = some names) :
    DataIO_ListStorageDataEntries store path = some names ∧
    (names = [] → DataIO_ListStorageDataEntries store path = some []) := by
  constructor
  · simpa [DataIO_ListStorageDataEntries] using h
  · intro hn
    subst hn
    simpa [DataIO_ListStorageDataEntries] using h

/-- C10 witness: a storage with one populated and one empty location. -/
theorem C10_witness :
    DataIO_ListStorageDataEntries [("cfg", ["a", "b"]), ("mt", [])] "mt" =
      some [] :=
  (C10_listEntries [("cfg", ["a", "b"]), ("mt", [])] "mt" [] (by decide)).2 rfl

/-- C4: appending (`key == none`, the C `NULL`) a new List to a List parent
succeeds, grows the size reported by `DataIO_GetListSize` by exactly one
and places the new empty List at the last index; every add or set with a
`none` key on a Level parent is a failure (`none`, modelling the absent
handle / `false`) that produces no modified tree. -/
theorem C4_append_law (elems : List DataNode)
    (entries : List (String × DataNode)) :
    (DataIO_AddList (.list elems) none = some (.list (elems ++ [.list []])) ∧
     DataIO_GetListSize (.list (elems ++ [.list []])) "" =
       DataIO_GetListSize (.list elems) "" + 1 ∧
     (elems ++ [DataNode.list []]).getLast? = some (.list [])) ∧
    (DataIO_AddList (.level entries) none = none ∧
     DataIO_AddLevel (.level entries) none = none ∧
     (∀ x : Int, DataIO_SetNumericValue (.level entries) none x = none) ∧
     (∀ s : String, DataIO_SetStringValue (.level entries) none s = none) ∧
     (∀ b : Bool, DataIO_SetBooleanValue (.level entries) none b = none)) := by
  refine ⟨⟨?_, ?_, ?_⟩, ?_, ?_, ?_, ?_, ?_⟩
  · simp [DataIO_AddList, setNode]
  · simp [DataIO_GetListSize, resolve, parsePath, resolveSegs,
      DATA_IO_MAX_PATH_LENGTH, show ("" : String).isEmpty = true from rfl,
      show ("" : String).length = 0 from rfl]
  · simp
  · simp [DataIO_AddList, setNode]
  · simp [DataIO_AddLevel, setNode]
  · intro x
    simp [DataIO_SetNumericValue, setNode]
  · intro s
    unfold DataIO_SetStringValue
    split
    · simp [setNode]
    · rfl
  · intro b
    simp [DataIO_SetBooleanValue, setNode]

/-- C7: a rendered path of exactly 256 characters is accepted while 257 is
rejected; a string value with exactly 127 payload characters is accepted
while 128 is rejected; every such LimitExceeded rejection only fails the
one operation (`none`), yielding no modified tree. -/
theorem C7_length_limits :
    (∀ (root : DataNode) (p : String), DATA_IO_MAX_PATH_LENGTH < p.length →
        resolve root p = none) ∧
    DataIO_HasKey tree256 path256 = true ∧
    DataIO_HasKey tree257 path257 = false ∧
    (∀ (parent : DataNode) (key : Option String) (s : String),
        DATA_IO_MAX_VALUE_LENGTH < s.length + 1 →
        DataIO_SetStringValue parent key s = none) ∧
    DataIO_SetStringValue (.level []) (some "k") str127 =
      some (.level [("k", .strVal str127)]) ∧
    DataIO_SetStringValue (.level []) (some "k") str128 = none := by
  refine ⟨?_, by decide, by decide, ?_, by decide, by decide⟩
  · intro root p h
    unfold resolve
    rw [if_neg (by omega)]
  · intro parent key s h
    unfold DataIO_SetStringValue
    rw [if_neg (by omega)]

/-- C7 witness: the general rejection bounds applied at the concrete
just-over-limit inputs. -/
theorem C7_witness :
    resolve (.level []) path257 = none ∧
    DataIO_SetStringValue (.level []) (some "k") str128 = none :=
  ⟨C7_length_limits.1 (.level []) path257 (by decide),
   C7_length_limits.2.2.2.1 (.level []) (some "k") str128 (by decide)⟩

/-- C8: keys within a Level are unique and every keyed placement preserves
that invariant across the whole tree; placing under an already-present key
replaces that key's node wholesale (the replacement's kind may differ),
keeps the key list and entry count unchanged (no duplicate entry), and
leaves every other key's binding untouched. -/
theorem C8_unique_keys_replace (parent v parent' : DataNode) (k : String)
    (hwf : wellFormed parent = true) (hv : wellFormed v = true)
    (hset : setNode parent (some k) v = some parent') :
    wellFormed parent' = true ∧
    ∃ entries, parent = .level entries ∧
      parent' = .level (insertOrReplace entries k v) ∧
      lookupKey (insertOrReplace entries k v) k = some v ∧
      (∀ k', k' ≠ k →
        lookupKey (insertOrReplace entries k v) k' = lookupKey entries k') ∧
      (hasEntry entries k = true →
        keysOf (insertOrReplace entries k v) = keysOf entries ∧
        (insertOrReplace entries k v).length = entries.length) := by
  cases parent with
  | number x => simp [setNode] at hset
  | strVal s => simp [setNode] at hset
  | boolVal b => simp [setNode] at hset
  | list es => simp [setNode] at hset
  | level entries =>
      simp only [setNode, Option.some.injEq] at hset
      subst hset
      simp only [wellFormed, Bool.and_eq_true, decide_eq_true_eq] at hwf
      refine ⟨?_, entries, rfl, rfl, lookup_insertOrReplace_self entries k v,
        fun k' hk' => lookup_insertOrReplace_ne entries k k' v hk',
        fun hmem => ⟨keysOf_insertOrReplace_mem entries k v hmem,
          length_insertOrReplace_mem entries k v hmem⟩⟩
      simp only [wellFormed, Bool.and_eq_true, decide_eq_true_eq]
      exact ⟨nodup_insertOrReplace entries k v hwf.1,
        wellFormedEntries_insertOrReplace entries k v hwf.2 hv⟩

/-- C8 witness: overwriting an existing numeric entry with a string node of
a different kind keeps the level well-formed. -/
theorem C8_witness :
    wellFormed (DataNode.level (insertOrReplace
      [("a", .number 1), ("b", .boolVal true)] "a" (.strVal "x"))) = true :=
  (C8_unique_keys_replace (.level [("a", .number 1), ("b", .boolVal true)])
    (.strVal "x")
    (.level (insertOrReplace [("a", .number 1), ("b", .boolVal true)] "a"
      (.strVal "x")))
    "a" (by decide) (by decide) (by decide)).1

/-- Unpacking the plain-key test. -/
theorem isPlainKeyPath_spec (k : String) (hk : isPlainKeyPath k = true) :
    k ≠ "" ∧ '.' ∉ k.data ∧ isIndexSegment k = false ∧
      k.length ≤ DATA_IO_MAX_PATH_LENGTH := by
  simp only [isPlainKeyPath, Bool.and_eq_true, Bool.not_eq_true',
    decide_eq_true_eq] at hk
  obtain ⟨⟨⟨h1, h2⟩, h3⟩, h4⟩ := hk
  refine ⟨?_, h2, h3, h4⟩
  intro hc
  subst hc
  exact absurd h1 (by decide)

/-- On a Level, a plain single-segment key path resolves exactly to that
key's lookup. -/
theorem resolve_singleKey (entries : List (String × DataNode)) (k : String)
    (hk : isPlainKeyPath k = true) :
    resolve (.level entries) k = lookupKey entries k := by
  obtain ⟨hne, hdot, hidx, hlen⟩ := isPlainKeyPath_spec k hk
  have hie : k.isEmpty = false := by
    rw [Bool.eq_false_iff]
    intro hc
    exact hne ((String.isEmpty_iff k).mp hc)
  have hstep : stepSegment (.level entries) k = lookupKey entries k := by
    unfold stepSegment
    rw [if_neg (by simp [hie])]
    rw [show classifySegment k = .key k by simp [classifySegment, hidx]]
  unfold resolve
  rw [if_pos hlen, parsePath_single k hne hdot]
  unfold resolveSegs
  rw [hstep]
  cases h : lookupKey entries k <;> simp [resolveSegs]

/-- C3 counterexample: the claim quantifies over every key, but the key
`"0"` is classified as a List index during path resolution, so the set
succeeds while the matching-kind read of the single-segment path returns
the default instead of the stored value. -/
theorem C3_counterexample :
    DataIO_SetNumericValue (.level []) (some "0") 5 =
      some (.level [("0", .number 5)]) ∧
    DataIO_GetNumericValue (.level [("0", .number 5)]) 7 "0" = 7 ∧
    (7 : Int) ≠ 5 := ⟨by decide, by decide, by decide⟩

/-- C3 (amended): for every Level parent and every key that is itself a
valid single-segment key path (non-empty, no dot, not parseable as a
non-negative integer, within the path-length limit), a successful set of a
scalar under the key followed by the matching-kind get of that
single-segment path returns exactly the stored value, whatever previously
occupied the key. -/
theorem C3_override_then_read (entries : List (String × DataNode))
    (k : String) (hk : isPlainKeyPath k = true) :
    (∀ (x : Int) (t' : DataNode) (d : Int),
        DataIO_SetNumericValue (.level entries) (some k) x = some t' →
        DataIO_GetNumericValue t' d k = x) ∧
    (∀ (s : String) (t' : DataNode) (d : String),
        DataIO_SetStringValue (.level entries) (some k) s = some t' →
        DataIO_GetStringValue t' d k = s) ∧
    (∀ (b : Bool) (t' : DataNode) (d : Bool),
        DataIO_SetBooleanValue (.level entries) (some k) b = some t' →
        DataIO_GetBooleanValue t' d k = b) := by
  refine ⟨?_, ?_, ?_⟩
  · intro x t' d hset
    simp only [DataIO_SetNumericValue, setNode, Option.some.injEq] at hset
    subst hset
    unfold DataIO_GetNumericValue
    rw [resolve_singleKey _ k hk, lookup_insertOrReplace_self]
  · intro s t' d hset
    unfold DataIO_SetStringValue at hset
    split at hset
    · simp only [setNode, Option.some.injEq] at hset
      subst hset
      unfold DataIO_GetStringValue
      rw [resolve_singleKey _ k hk, lookup_insertOrReplace_self]
    · exact Option.noConfusion hset
  · intro b t' d hset
    simp only [DataIO_SetBooleanValue, setNode, Option.some.injEq] at hset
    subst hset
    unfold DataIO_GetBooleanValue
    rw [resolve_singleKey _ k hk, lookup_insertOrReplace_self]

/-- C3 witness: overriding the port then reading it back. -/
theorem C3_witness :
    DataIO_GetNumericValue (.level [("port", .number 9090)]) 0 "port" =
      9090 :=
  (C3_override_then_read [("port", .number 8080)] "port" (by decide)).1
    9090 (.level [("port", .number 9090)]) 0 (by decide)

/-- C2: path resolution splits the rendered path on the dot, classifies
every segment parseable as a non-negative integer as a List index and
every other segment as a Level key, and walks left to right, failing on
any absence, out-of-range index or segment/node-kind mismatch; the empty
path resolves to the root itself, any empty segment (leading, trailing or
doubled dot) fails resolution for every tree, and negative or fractional
numeric segments are classified as keys. -/
theorem C2_path_resolution (root node : DataNode) (p s k : String)
    (segs : List String) (entries : List (String × DataNode))
    (elems : List DataNode) (i : Nat) :
    resolve root "" = some root ∧
    ("" ∈ parsePath p → resolve root p = none) ∧
    resolve root ".a" = none ∧
    resolve root "a." = none ∧
    resolve root "a..b" = none ∧
    classifySegment "-1" = .key "-1" ∧
    classifySegment "1.5" = .key "1.5" ∧
    (isIndexSegment s = true → classifySegment s = .index (digitsToNat s)) ∧
    (isIndexSegment s = false → classifySegment s = .key s) ∧
    (s.isEmpty = false → classifySegment s = .key k →
        stepSegment (.level entries) s = lookupKey entries k ∧
        stepSegment (.list elems) s = none) ∧
    (s.isEmpty = false → classifySegment s = .index i →
        stepSegment (.list elems) s = elems.get? i ∧
        stepSegment (.level entries) s = none) ∧
    (stepSegment node s = none → resolveSegs node (s :: segs) = none) ∧
    (∀ child, stepSegment node s = some child →
        resolveSegs node (s :: segs) = resolveSegs child segs) := by
  refine ⟨?_, resolve_of_empty_seg root p,
    resolve_of_empty_seg root ".a" (by decide),
    resolve_of_empty_seg root "a." (by decide),
    resolve_of_empty_seg root "a..b" (by decide),
    by decide, by decide, ?_, ?_, ?_, ?_, ?_, ?_⟩
  · unfold resolve
    rw [if_pos (by decide)]
    simp [parsePath, resolveSegs, show ("" : String).isEmpty = true from rfl]
  · intro h
    simp [classifySegment, h]
  · intro h
    simp [classifySegment, h]
  · intro hie hcls
    constructor
    · unfold stepSegment
      rw [if_neg (by simp [hie]), hcls]
    · unfold stepSegment
      rw [if_neg (by simp [hie]), hcls]
  · intro hie hcls
    constructor
    · unfold stepSegment
      rw [if_neg (by simp [hie]), hcls]
    · unfold stepSegment
      rw [if_neg (by simp [hie]), hcls]
  · intro h
    simp [resolveSegs, h]
  · intro child h
    simp [resolveSegs, h]

/-- C2 witness: the general laws applied at concrete paths, segments and
nodes. -/
theorem C2_witness :
    resolve demoTree "" = some demoTree ∧
    resolve demoTree "server..port" = none ∧
    classifySegment "42" = .index 42 ∧
    classifySegment "-1" = .key "-1" ∧
    (stepSegment (.list [.number 1]) "0" = some (.number 1) ∧
      stepSegment (.level []) "0" = none) ∧
    resolveSegs (.level []) ["x", "y"] = none := by
  obtain ⟨h1, h2, -⟩ :=
    C2_path_resolution demoTree demoTree "server..port" "x" "" [] [] [] 0
  obtain ⟨-, -, -, -, -, -, -, h8, -⟩ :=
    C2_path_resolution demoTree demoTree "" "42" "" [] [] [] 0
  obtain ⟨-, -, -, -, -, -, -, -, -, -, h11, -⟩ :=
    C2_path_resolution (.list [.number 1]) (.list [.number 1]) "" "0" "" []
      [] [.number 1] 0
  obtain ⟨-, -, -, -, -, -, -, -, -, -, -, h12, -⟩ :=
    C2_path_resolution (.level []) (.level []) "" "x" "" ["y"] [] [] 0
  exact ⟨h1, h2 (by decide), h8 (by decide), by decide,
    h11 (by decide) (by decide), h12 (by decide)⟩

/-- C9: parsing the serialized string of any tree through the canonical
backend recovers the tree exactly — in particular with identical key order
in every Level and identical element order in every List. -/
theorem C9_serialize_roundtrip (t : DataNode) :
    DataIO_LoadStringData (DataIO_GetDataString t) = some t := by
  have hd : depthNode t ≤ (String.mk (serNode t)).length + 1 :=
    le_trans (depthNode_le_serLength t) (Nat.le_succ _)
  have hp : parseNode ((String.mk (serNode t)).length + 1)
      ((String.mk (serNode t)).data) = some (t, []) := by
    have h2 := parse_serNode t ((String.mk (serNode t)).length + 1) [] hd
    rwa [List.append_nil] at h2
  unfold DataIO_LoadStringData DataIO_GetDataString
  rw [hp]
